import Mathlib

/-!
Verification of the plagiarism-checking core of `app.py` (plagiarism part of
the combined Flask backend).  The Python functions `jaccard_similarity`,
`check_plagiarism` and the route handler `handle_check` are embedded
shallowly: strings become `List Char` / `String`, the Google-custom-search
collaborator becomes an explicit function argument, machine floats become
exact rationals, and the per-sentence `try/except` becomes a sum type on the
collaborator's answer.  All definitions below are translated from the source;
specification-side helper predicates used only in theorem statements are
clearly marked.
-/

/-- Python `str.strip` whitespace class (ASCII): space, tab, newline,
carriage return, vertical tab, form feed. -/
def isPyWs (c : Char) : Bool :=
  c == ' ' || c == '\t' || c == '\n' || c == '\r' || c == '\x0b' || c == '\x0c'

/-- Python `str.strip()`: drop leading and trailing whitespace. -/
def pyStrip (l : List Char) : List Char :=
  ((l.dropWhile isPyWs).reverse.dropWhile isPyWs).reverse

/-- Sentence-terminal punctuation of the regex class `[.!?]`. -/
def isTermChar (c : Char) : Bool :=
  c == '.' || c == '!' || c == '?'

/-- Terminator test on an optional previous character (the regex lookbehind
`(?<=[.!?])`; at the start of the text there is no previous character). -/
def isTermOpt : Option Char → Bool
  | none => false
  | some c => isTermChar c

/-- Engine of `re.split(r'(?<=[.!?]) +', text)`.  In normal mode (`false`)
`acc` holds the current piece reversed; a split happens when the previous
character is a terminator and the current one is a space, and skip mode
(`true`) then consumes the rest of the maximal space run (the greedy ` +`). -/
def splitGo : Bool → List Char → List Char → List (List Char)
  | _, acc, [] => [acc.reverse]
  | true, _, c :: rest =>
      if c == ' ' then splitGo true [] rest else splitGo false [c] rest
  | false, acc, c :: rest =>
      if isTermOpt acc.head? && c == ' ' then
        acc.reverse :: splitGo true [] rest
      else
        splitGo false (c :: acc) rest

/-- `re.split(r'(?<=[.!?]) +', text)` from line 154 of `app.py`. -/
def splitSentences (text : List Char) : List (List Char) :=
  splitGo false [] text

/-- The sentence list produced at the top of `check_plagiarism`. -/
def sentencesOf (text : String) : List String :=
  (splitSentences text.data).map String.mk

/-- Python `str.lower()` (ASCII case fold, adequate for the texts here). -/
def lowerL (l : List Char) : List Char :=
  l.map Char.toLower

/-- The regex word class `\w`: alphanumeric or underscore (ASCII model). -/
def wordCharB (c : Char) : Bool :=
  c.isAlphanum || c == '_'

/-- Engine of `re.findall(r'\w+', s)`: maximal runs of word characters;
the accumulator holds the current (reversed) run when inside one. -/
def wordsGo : Option (List Char) → List Char → List (List Char)
  | none, [] => []
  | some w, [] => [w.reverse]
  | none, c :: rest =>
      if wordCharB c then wordsGo (some [c]) rest else wordsGo none rest
  | some w, c :: rest =>
      if wordCharB c then wordsGo (some (c :: w)) rest
      else w.reverse :: wordsGo none rest

/-- `re.findall(r'\w+', s)` as used on lines 188-189 of `app.py`. -/
def pyFindallWords (l : List Char) : List (List Char) :=
  wordsGo none l

/-- Python `set(re.findall(r'\w+', s))`, modelled as a deduplicated list. -/
def wordSet (l : List Char) : List (List Char) :=
  (pyFindallWords l).dedup

/-- `jaccard_similarity` (lines 148-151): `|a ∩ b| / |a ∪ b|`, and `0` when
the union is empty.  Exact rational arithmetic models the Python floats;
`mkRat a b` is the rational `a / b`. -/
def jaccard_similarity (set1 set2 : List (List Char)) : ℚ :=
  let intersection := (set1.inter set2).length
  let union := (set1.union set2).length
  if union ≠ 0 then mkRat (intersection : ℤ) union else 0

/-- Does `needle` occur at the head of `hay`? (helper for Python `in`). -/
def headMatch : List Char → List Char → Bool
  | [], _ => true
  | _ :: _, [] => false
  | a :: as, b :: bs => a == b && headMatch as bs

/-- Python substring containment `needle in hay` on character lists. -/
def subMatch : List Char → List Char → Bool
  | needle, [] => needle.isEmpty
  | needle, c :: rest => headMatch needle (c :: rest) || subMatch needle rest

/-- One search hit as consumed from the remote response: `item['link']` and
`item.get('snippet', '')`. -/
structure Item where
  link : String
  snippet : String
deriving DecidableEq

/-- Outcome of one `service.cse().list(...).execute()` call: an exception
(`HttpError` or any other, both caught), a response without an `'items'`
key, or a response with a candidate list. -/
inductive SearchResponse
  | failure
  | success (items : Option (List Item))
deriving DecidableEq

/-- The candidate loop of `check_plagiarism` (lines 178-194).  `best` and
`bestScore` are the mutable `best_match` / `best_partial_score`; the match
kind is the string `"exact"` or `"partial"` exactly as in the source tuples.
The `break` on an exact hit is the early return. -/
def classifyAux (sl : List Char) : List Item → Option (String × Item) → ℚ →
    Option (String × Item)
  | [], best, _ => best
  | item :: rest, best, bestScore =>
      let snippet := lowerL item.snippet.data
      if subMatch sl snippet then
        some (("exact"), item)
      else
        let sentence_words := wordSet sl
        let snippet_words := wordSet snippet
        let similarity := jaccard_similarity sentence_words snippet_words
        if mkRat 3 10 ≤ similarity && bestScore < similarity then
          classifyAux sl rest (some (("partial"), item)) similarity
        else
          classifyAux sl rest best bestScore

/-- Verdict for one sentence over one candidate list, starting from
`best_match = None`, `best_partial_score = 0`. -/
def classify (sl : List Char) (items : List Item) : Option (String × Item) :=
  classifyAux sl items none 0

/-- The exact-phrase query `f'"{sentence}"'` sent to the collaborator. -/
def quote (s : String) : String :=
  ("\"") ++ s ++ ("\"")

/-- One element of the `matches` list in the response (lines 205-210). -/
structure MatchRecord where
  sentence : String
  source : String
  snippet : String
  match_type : String
deriving DecidableEq

/-- Building one `matches` entry: the snippet is truncated to 200 characters
and an ellipsis marker appended. -/
def mkRecord (sentence : List Char) (item : Item) (mtype : String) :
    MatchRecord :=
  { sentence := String.mk sentence
    source := item.link
    snippet := String.mk (item.snippet.data.take 200) ++ ("...")
    match_type := mtype }

/-- The mutable loop state of `check_plagiarism`: the two character
accumulators, the `matches` list, and (for specification purposes) the
queries issued to the search collaborator so far. -/
structure ScanState where
  exact_chars : ℕ
  pmatch_chars : ℕ
  matchList : List MatchRecord
  queries : List String
deriving DecidableEq

/-- The body of the `for sentence in sentences` loop (lines 162-215): strip,
drop short sentences, query the collaborator (recording the query), catch
failures, classify, accumulate characters by match kind, append the record. -/
def processSentence (collab : String → SearchResponse) (st : ScanState)
    (sentence0 : String) : ScanState :=
  let sentence := pyStrip sentence0.data
  if sentence.length < 15 then st
  else
    let q := quote (String.mk sentence)
    let st1 : ScanState := { st with queries := st.queries ++ [q] }
    match collab q with
    | SearchResponse.failure => st1
    | SearchResponse.success none => st1
    | SearchResponse.success (some items) =>
        match classifyAux (lowerL sentence) items none 0 with
        | none => st1
        | some (mt, item) =>
            if mt = ("exact") then
              { st1 with
                exact_chars := st1.exact_chars + sentence.length
                matchList := st1.matchList ++ [mkRecord sentence item mt] }
            else if mt = ("partial") then
              { st1 with
                pmatch_chars := st1.pmatch_chars + sentence.length
                matchList := st1.matchList ++ [mkRecord sentence item mt] }
            else
              { st1 with matchList := st1.matchList ++ [mkRecord sentence item mt] }

/-- The whole sentence loop, started from zeroed accumulators. -/
def scanOf (collab : String → SearchResponse) (text : String) : ScanState :=
  (sentencesOf text).foldl (processSentence collab) ⟨0, 0, [], []⟩

/-- Python 3 `round` to an integer: round half to even.  The fractional
part `q - ⌊q⌋` is compared with `1/2` by cross-multiplication with the
(positive) denominator: `twice = 2 * (q - ⌊q⌋) * q.den`, so `frac < 1/2`
iff `twice < q.den`. -/
def pyRound (q : ℚ) : ℤ :=
  if 2 * q.num - 2 * ⌊q⌋ * (q.den : ℤ) < (q.den : ℤ) then ⌊q⌋
  else if (q.den : ℤ) < 2 * q.num - 2 * ⌊q⌋ * (q.den : ℤ) then ⌊q⌋ + 1
  else if ⌊q⌋ % 2 = 0 then ⌊q⌋ else ⌊q⌋ + 1

/-- The dictionary returned by `check_plagiarism` (lines 222-227). -/
structure CheckResult where
  matchList : List MatchRecord
  exact_percent : ℤ
  pmatch_percent : ℤ
  total_percent : ℤ
deriving DecidableEq

/-- `check_plagiarism(text)` (lines 153-227), with the search service as an
explicit collaborator argument.  `total_chars = len(text)`; the percentages
follow lines 217-220 (the sum of two integers is its own `round`). -/
def check_plagiarism (collab : String → SearchResponse) (text : String) :
    CheckResult :=
  let total_chars := text.length
  let st := scanOf collab text
  let exact_percent : ℤ :=
    if 0 < total_chars then
      pyRound (mkRat ((st.exact_chars : ℤ) * 100) total_chars) else 0
  let pmatch_percent : ℤ :=
    if 0 < total_chars then
      pyRound (mkRat ((st.pmatch_chars : ℤ) * 100) total_chars) else 0
  { matchList := st.matchList
    exact_percent := exact_percent
    pmatch_percent := pmatch_percent
    total_percent := exact_percent + pmatch_percent }

/-- HTTP-level outcome of the `/check_plagiarism` route. -/
inductive HttpResponse
  | ok (result : CheckResult)
  | badRequest (error : String)
  | serverError (error : String)
deriving DecidableEq

/-- `handle_check` (lines 229-244): the optional argument is the `'text'`
field of the request body (absent body or absent key collapse to `none`). -/
def handle_check (collab : String → SearchResponse)
    (textField : Option String) : HttpResponse :=
  match textField with
  | none => HttpResponse.badRequest ("No text provided")
  | some text =>
      if 5000 < text.length then
        HttpResponse.badRequest ("Text exceeds 5000 characters")
      else
        HttpResponse.ok (check_plagiarism collab text)


/-! ## Specification-side views of the loop

The following definitions restate, per sentence, what one iteration of the
loop does; the decomposition lemma below proves that the folded loop state
is exactly the accumulation of these per-sentence values.  They are used
only in theorem statements and proofs. -/

/-- The stripped form of one raw sentence piece. -/
def trimmedOf (s0 : String) : List Char :=
  pyStrip s0.data

/-- The query `check_plagiarism` sends for one (qualifying) sentence. -/
def queryOf (s0 : String) : String :=
  quote (String.mk (trimmedOf s0))

/-- The verdict one sentence receives: `none` for a skipped short sentence,
a failed call, a response without items, or no matching candidate. -/
def unitVerdict (collab : String → SearchResponse) (s0 : String) :
    Option (String × Item) :=
  if (trimmedOf s0).length < 15 then none
  else
    match collab (queryOf s0) with
    | SearchResponse.failure => none
    | SearchResponse.success none => none
    | SearchResponse.success (some items) =>
        classifyAux (lowerL (trimmedOf s0)) items none 0

/-- Characters a sentence adds to `exact_chars`. -/
def exactContrib (collab : String → SearchResponse) (s0 : String) : ℕ :=
  match unitVerdict collab s0 with
  | some (mt, _) => if mt = ("exact") then (trimmedOf s0).length else 0
  | none => 0

/-- Characters a sentence adds to the `partial_chars` accumulator. -/
def pmatchContrib (collab : String → SearchResponse) (s0 : String) : ℕ :=
  match unitVerdict collab s0 with
  | some (mt, _) =>
      if mt = ("exact") then 0
      else if mt = ("partial") then (trimmedOf s0).length else 0
  | none => 0

/-- The `matches` entry a sentence produces, when it has a verdict. -/
def recordOf (collab : String → SearchResponse) (s0 : String) :
    Option MatchRecord :=
  (unitVerdict collab s0).map (fun p => mkRecord (trimmedOf s0) p.2 p.1)

/-- The Jaccard similarity the classifier computes between a (lower-cased)
sentence and one candidate's lower-cased snippet. -/
def simOf (sl : List Char) (item : Item) : ℚ :=
  jaccard_similarity (wordSet sl) (wordSet (lowerL item.snippet.data))

/-- Specification-side predicate for a clean prefix before a separator:
walking `u` with `prev` as the previous character, no terminator is ever
immediately followed by a space, and the final character is a terminator.
`sepOk none u` thus says: `u` is nonempty, ends in `.`, `!` or `?`, and
contains no internal split point. -/
def sepOk : Option Char → List Char → Bool
  | prev, [] => isTermOpt prev
  | prev, c :: rest => !(isTermOpt prev && c == ' ') && sepOk (some c) rest

/-- Specification-side predicate: walking `l` with `prev` as the previous
character, no terminator is ever immediately followed by a space.
`noSplitIn none l` thus says the regex separator `(?<=[.!?]) +` matches
nowhere in `l` — spaces are allowed anywhere except right after `.`, `!`
or `?`, so texts where terminators are followed by tabs, newlines, other
characters, or the end of the text all satisfy it. -/
def noSplitIn : Option Char → List Char → Bool
  | _, [] => true
  | prev, c :: rest => !(isTermOpt prev && c == ' ') && noSplitIn (some c) rest

/-- The last character of `xs`, or `p` when `xs` is empty. -/
def lastOpt : Option Char → List Char → Option Char
  | p, [] => p
  | _, x :: xs => lastOpt (some x) xs

/-! ## Concrete collaborators and texts used in closed theorems -/

/-- A collaborator whose single hit's snippet contains the spec's example
sentence verbatim. -/
def collab7 : String → SearchResponse := fun _ =>
  SearchResponse.success (some
    [⟨("https://example.com/pangram"),
      ("Typography: The quick brown fox jumps over the lazy dog. A classic pangram.")⟩])

/-- The end-to-end example text of the specification. -/
def text7 : String := "The quick brown fox jumps over the lazy dog. Short."

/-- A collaborator giving the first sentence an exact hit and the second a
qualifying Jaccard hit, to exercise both percentage roundings. -/
def collab4 : String → SearchResponse := fun q =>
  if q = ("\"aaaaaaaaaaaaaa.\"") then
    SearchResponse.success (some [⟨("la"), ("xx aaaaaaaaaaaaaa. yy")⟩])
  else
    SearchResponse.success (some [⟨("lb"), ("bbbbbbbbbbbbbb x y")⟩])

/-- A 40-character text with one exact and one Jaccard-matched sentence of
15 characters each, on which the two roundings visibly disagree with a
combined rounding. -/
def text4 : String := "aaaaaaaaaaaaaa. bbbbbbbbbbbbbb.         "

/-- A collaborator whose single hit is an exact match for the 18-character
sentence used in witnesses. -/
def collab9 : String → SearchResponse := fun _ =>
  SearchResponse.success (some
    [⟨("http://x"), ("abcde fghij klmno. more words")⟩])

/-! ## Basic length lemmas -/

theorem length_dropWhile_le' (p : Char → Bool) (l : List Char) :
    (l.dropWhile p).length ≤ l.length := by
  induction l with
  | nil => simp
  | cons a t ih =>
      by_cases h : p a
      · simp only [List.dropWhile_cons, h, if_true, List.length_cons]
        omega
      · simp [List.dropWhile_cons, h]

theorem pyStrip_length_le (l : List Char) : (pyStrip l).length ≤ l.length := by
  unfold pyStrip
  calc ((l.dropWhile isPyWs).reverse.dropWhile isPyWs).reverse.length
      = ((l.dropWhile isPyWs).reverse.dropWhile isPyWs).length := by
        simp
    _ ≤ (l.dropWhile isPyWs).reverse.length := length_dropWhile_le' _ _
    _ = (l.dropWhile isPyWs).length := by simp
    _ ≤ l.length := length_dropWhile_le' _ _

theorem splitGo_sum_le (l : List Char) :
    ∀ (mode : Bool) (acc : List Char),
      ((splitGo mode acc l).map List.length).sum ≤ acc.length + l.length := by
  induction l with
  | nil => intro mode acc; cases mode <;> simp [splitGo]
  | cons c rest ih =>
      intro mode acc
      have h1 := ih true []
      have h2 := ih false [c]
      have h3 := ih false (c :: acc)
      simp only [List.length_nil, List.length_cons, Nat.zero_add] at h1 h2 h3
      cases mode with
      | true =>
          by_cases h : (c == ' ') = true
          · simp [splitGo, h]
            omega
          · simp [splitGo, h]
            omega
      | false =>
          by_cases h : (isTermOpt acc.head? && (c == ' ')) = true
          · simp [splitGo, h]
            omega
          · simp [splitGo, h]
            omega

theorem splitSentences_sum_le (l : List Char) :
    ((splitSentences l).map List.length).sum ≤ l.length := by
  have := splitGo_sum_le l false []
  simpa [splitSentences] using this

/-! ## Rounding lemmas -/

theorem floor_le_pyRound (q : ℚ) : ⌊q⌋ ≤ pyRound q := by
  unfold pyRound
  split
  · exact le_refl _
  · split
    · omega
    · split <;> omega

theorem pyRound_le_floor_add_one (q : ℚ) : pyRound q ≤ ⌊q⌋ + 1 := by
  unfold pyRound
  split
  · omega
  · split
    · omega
    · split <;> omega

theorem pyRound_nonneg (q : ℚ) (h : 0 ≤ q) : 0 ≤ pyRound q := by
  have hf : (0:ℤ) ≤ ⌊q⌋ := Int.le_floor.mpr (by simpa using h)
  exact le_trans hf (floor_le_pyRound q)

theorem pyRound_le_intCast (q : ℚ) (n : ℤ) (h : q ≤ (n:ℚ)) : pyRound q ≤ n := by
  have hfl : ⌊q⌋ ≤ n := by
    have := Int.floor_le_floor h
    simpa using this
  unfold pyRound
  split
  · exact hfl
  · -- the fractional part is at least 1/2, so the floor is strictly below n
    rename_i h1
    have hden : (0:ℤ) < (q.den : ℤ) := by exact_mod_cast q.den_pos
    have htwice : (q.den : ℤ) ≤ 2 * q.num - 2 * ⌊q⌋ * (q.den : ℤ) := by omega
    have hq : ((q.num : ℚ) / (q.den : ℚ)) = q := Rat.num_div_den q
    have hdq : (0:ℚ) < (q.den : ℚ) := by exact_mod_cast q.den_pos
    have hcast : ((q.den : ℤ) : ℚ) ≤ ((2 * q.num - 2 * ⌊q⌋ * (q.den : ℤ) : ℤ) : ℚ) := by
      exact_mod_cast htwice
    push_cast at hcast
    have hnum : (q.num : ℚ) = q * (q.den : ℚ) :=
      (div_eq_iff (ne_of_gt hdq)).mp hq
    rw [hnum] at hcast
    have hhalf : ((⌊q⌋ : ℚ) + 1/2) ≤ q := by nlinarith
    have hlt : (⌊q⌋ : ℚ) < (n : ℚ) := by linarith
    have hfln : ⌊q⌋ < n := by exact_mod_cast hlt
    split
    · omega
    · split <;> omega

/-! ## Decomposition of the sentence loop -/

theorem jaccard_nonneg (a b : List (List Char)) :
    0 ≤ jaccard_similarity a b := by
  show (0:ℚ) ≤
    if (a.union b).length ≠ 0 then
      mkRat (((a.inter b).length : ℤ)) ((a.union b).length) else 0
  split
  · exact Rat.mkRat_nonneg (Int.natCast_nonneg _) _
  · exact le_refl 0

theorem processSentence_eq (collab : String → SearchResponse) (st : ScanState)
    (s0 : String) :
    processSentence collab st s0 =
      { exact_chars := st.exact_chars + exactContrib collab s0
        pmatch_chars := st.pmatch_chars + pmatchContrib collab s0
        matchList := st.matchList ++ (recordOf collab s0).toList
        queries := st.queries ++
          (if (trimmedOf s0).length < 15 then [] else [queryOf s0]) } := by
  unfold processSentence exactContrib pmatchContrib recordOf unitVerdict
    queryOf trimmedOf
  by_cases h : (pyStrip s0.data).length < 15
  · simp [h]
  · cases hc : collab (quote (String.mk (pyStrip s0.data))) with
    | failure => simp [h, hc]
    | success oitems =>
        cases oitems with
        | none => simp [h, hc]
        | some items =>
            cases hcl : classifyAux (lowerL (pyStrip s0.data)) items none 0 with
            | none => simp [h, hc, hcl]
            | some p =>
                obtain ⟨mt, item⟩ := p
                by_cases hmt : mt = ("exact")
                · simp [h, hc, hcl, hmt, mkRecord]
                · by_cases hmt2 : mt = ("partial")
                  · simp [h, hc, hcl, hmt, hmt2, mkRecord]
                  · simp [h, hc, hcl, hmt, hmt2, mkRecord]

theorem foldl_processSentence_eq (collab : String → SearchResponse)
    (sentences : List String) :
    ∀ st : ScanState,
      sentences.foldl (processSentence collab) st =
        { exact_chars := st.exact_chars +
            (sentences.map (exactContrib collab)).sum
          pmatch_chars := st.pmatch_chars +
            (sentences.map (pmatchContrib collab)).sum
          matchList := st.matchList ++ sentences.filterMap (recordOf collab)
          queries := st.queries ++
            ((sentences.filter
                (fun s0 => 15 ≤ (trimmedOf s0).length)).map queryOf) } := by
  induction sentences with
  | nil => intro st; simp
  | cons s ss ih =>
      intro st
      rw [List.foldl_cons, processSentence_eq, ih]
      by_cases h : (trimmedOf s).length < 15
      · have h' : ¬ (15 ≤ (trimmedOf s).length) := by omega
        cases hrec : recordOf collab s with
        | none => simp [h, h', hrec, List.filterMap_cons, Nat.add_assoc]
        | some r => simp [h, h', hrec, List.filterMap_cons, Nat.add_assoc]
      · have h' : 15 ≤ (trimmedOf s).length := by omega
        cases hrec : recordOf collab s with
        | none =>
            simp [h, h', hrec, List.filterMap_cons, List.filter_cons,
              Nat.add_assoc]
        | some r =>
            simp [h, h', hrec, List.filterMap_cons, List.filter_cons,
              Nat.add_assoc]

theorem scanOf_eq (collab : String → SearchResponse) (text : String) :
    scanOf collab text =
      { exact_chars := ((sentencesOf text).map (exactContrib collab)).sum
        pmatch_chars := ((sentencesOf text).map (pmatchContrib collab)).sum
        matchList := (sentencesOf text).filterMap (recordOf collab)
        queries := ((sentencesOf text).filter
            (fun s0 => 15 ≤ (trimmedOf s0).length)).map queryOf } := by
  unfold scanOf
  rw [foldl_processSentence_eq]
  simp

theorem contrib_mutually_exclusive (collab : String → SearchResponse)
    (s0 : String) :
    (exactContrib collab s0 = 0 ∨ pmatchContrib collab s0 = 0) ∧
    exactContrib collab s0 + pmatchContrib collab s0 ≤ (trimmedOf s0).length := by
  unfold exactContrib pmatchContrib
  cases hv : unitVerdict collab s0 with
  | none => simp
  | some p =>
      obtain ⟨mt, item⟩ := p
      by_cases hmt : mt = ("exact")
      · simp [hmt]
      · by_cases hmt2 : mt = ("partial")
        · simp [hmt, hmt2]
        · simp [hmt, hmt2]

/-! ## Classifier lemmas -/

theorem classifyAux_exact_first (sl : List Char) (item : Item)
    (items2 : List Item) :
    ∀ (items1 : List Item) (best : Option (String × Item)) (s : ℚ),
      (∀ it ∈ items1, subMatch sl (lowerL it.snippet.data) = false) →
      subMatch sl (lowerL item.snippet.data) = true →
      classifyAux sl (items1 ++ item :: items2) best s =
        some (("exact"), item) := by
  intro items1
  induction items1 with
  | nil =>
      intro best s _ h2
      simp [classifyAux, h2]
  | cons it rest ih =>
      intro best s h1 h2
      have hit : subMatch sl (lowerL it.snippet.data) = false :=
        h1 it (List.mem_cons_self it rest)
      have hrest : ∀ x ∈ rest, subMatch sl (lowerL x.snippet.data) = false :=
        fun x hx => h1 x (List.mem_cons_of_mem it hx)
      simp only [List.cons_append, classifyAux, hit]
      simp only [Bool.false_eq_true, if_false]
      split
      · exact ih _ _ hrest h2
      · exact ih _ _ hrest h2

/-- One reduction step of the candidate loop when the exact test fails. -/
theorem classifyAux_cons_no_exact (sl : List Char) (it : Item)
    (rest : List Item) (best : Option (String × Item)) (s : ℚ)
    (hit : subMatch sl (lowerL it.snippet.data) = false) :
    classifyAux sl (it :: rest) best s =
      if mkRat 3 10 ≤ simOf sl it ∧ s < simOf sl it then
        classifyAux sl rest (some (("partial"), it)) (simOf sl it)
      else classifyAux sl rest best s := by
  simp only [classifyAux, hit, Bool.false_eq_true, if_false, simOf]
  by_cases h1 : mkRat 3 10 ≤ jaccard_similarity (wordSet sl)
      (wordSet (lowerL it.snippet.data))
  · by_cases h2 : s < jaccard_similarity (wordSet sl)
        (wordSet (lowerL it.snippet.data))
    · simp [h1, h2]
    · simp [h1, h2]
  · simp [h1]

theorem classifyAux_no_exact_char (sl : List Char) :
    ∀ (items : List Item) (best : Option (String × Item)) (s : ℚ),
      (∀ it ∈ items, subMatch sl (lowerL it.snippet.data) = false) →
      ((classifyAux sl items best s = best ∧
        ∀ it ∈ items, simOf sl it ≤ s ∨ simOf sl it < mkRat 3 10) ∨
       (∃ (i : ℕ) (hi : i < items.length),
          classifyAux sl items best s =
            some (("partial"), items.get ⟨i, hi⟩) ∧
          mkRat 3 10 ≤ simOf sl (items.get ⟨i, hi⟩) ∧
          s < simOf sl (items.get ⟨i, hi⟩) ∧
          (∀ (j : ℕ) (hj : j < items.length),
            simOf sl (items.get ⟨j, hj⟩) ≤ simOf sl (items.get ⟨i, hi⟩)) ∧
          (∀ (j : ℕ) (hj : j < items.length), j < i →
            simOf sl (items.get ⟨j, hj⟩) < simOf sl (items.get ⟨i, hi⟩)))) := by
  intro items
  induction items with
  | nil =>
      intro best s _
      left
      exact ⟨rfl, by simp⟩
  | cons it rest ih =>
      intro best s h
      have hit : subMatch sl (lowerL it.snippet.data) = false :=
        h it (List.mem_cons_self it rest)
      have hrest : ∀ x ∈ rest, subMatch sl (lowerL x.snippet.data) = false :=
        fun x hx => h x (List.mem_cons_of_mem it hx)
      rw [classifyAux_cons_no_exact sl it rest best s hit]
      by_cases hq : mkRat 3 10 ≤ simOf sl it ∧ s < simOf sl it
      · rw [if_pos hq]
        rcases ih (some (("partial"), it)) (simOf sl it) hrest with
          ⟨heq, hall⟩ | ⟨i, hi, heq, h03, hgt, hmax, hfirst⟩
        · right
          refine ⟨0, by simp, ?_, hq.1, hq.2, ?_, ?_⟩
          · simpa using heq
          · intro j hj
            cases j with
            | zero => exact le_refl _
            | succ j' =>
                have hj' : j' < rest.length := by
                  simpa using Nat.lt_of_succ_lt_succ hj
                have := hall (rest.get ⟨j', hj'⟩) (rest.get_mem _ _)
                rcases this with h1 | h1
                · simpa using h1
                · have : simOf sl (rest.get ⟨j', hj'⟩) ≤ simOf sl it :=
                    le_trans (le_of_lt h1) hq.1
                  simpa using this
          · intro j hj hji
            omega
        · right
          refine ⟨i + 1, by simpa using Nat.succ_lt_succ hi, ?_, ?_, ?_, ?_, ?_⟩
          · simpa using heq
          · simpa using h03
          · have : s < simOf sl (rest.get ⟨i, hi⟩) := lt_trans hq.2 hgt
            simpa using this
          · intro j hj
            cases j with
            | zero =>
                have : simOf sl it ≤ simOf sl (rest.get ⟨i, hi⟩) :=
                  le_of_lt hgt
                simpa using this
            | succ j' =>
                have hj' : j' < rest.length := by
                  simpa using Nat.lt_of_succ_lt_succ hj
                have := hmax j' hj'
                simpa using this
          · intro j hj hji
            cases j with
            | zero => simpa using hgt
            | succ j' =>
                have hj' : j' < rest.length := by
                  simpa using Nat.lt_of_succ_lt_succ hj
                have := hfirst j' hj' (by omega)
                simpa using this
      · rw [if_neg hq]
        have hnq : simOf sl it < mkRat 3 10 ∨ simOf sl it ≤ s := by
          by_cases h1 : mkRat 3 10 ≤ simOf sl it
          · right
            by_cases h2 : s < simOf sl it
            · exact absurd ⟨h1, h2⟩ hq
            · exact not_lt.mp h2
          · left
            exact not_le.mp h1
        rcases ih best s hrest with
          ⟨heq, hall⟩ | ⟨i, hi, heq, h03, hgt, hmax, hfirst⟩
        · left
          refine ⟨heq, ?_⟩
          intro x hx
          rcases List.mem_cons.mp hx with hx1 | hx2
          · subst hx1
            rcases hnq with h1 | h1
            · exact Or.inr h1
            · exact Or.inl h1
          · exact hall x hx2
        · right
          have hhead : simOf sl it < simOf sl (rest.get ⟨i, hi⟩) := by
            rcases hnq with h1 | h1
            · exact lt_of_lt_of_le h1 h03
            · exact lt_of_le_of_lt h1 hgt
          refine ⟨i + 1, by simpa using Nat.succ_lt_succ hi, ?_, ?_, ?_, ?_, ?_⟩
          · simpa using heq
          · simpa using h03
          · simpa using hgt
          · intro j hj
            cases j with
            | zero => simpa using le_of_lt hhead
            | succ j' =>
                have hj' : j' < rest.length := by
                  simpa using Nat.lt_of_succ_lt_succ hj
                have := hmax j' hj'
                simpa using this
          · intro j hj hji
            cases j with
            | zero => simpa using hhead
            | succ j' =>
                have hj' : j' < rest.length := by
                  simpa using Nat.lt_of_succ_lt_succ hj
                have := hfirst j' hj' (by omega)
                simpa using this

/-! ## Segmentation lemmas -/

theorem splitGo_skip_eq (v : List Char) :
    splitGo true [] v = splitGo false [] (v.dropWhile (fun c => c == ' ')) := by
  induction v with
  | nil => rfl
  | cons c v' ih =>
      by_cases h : (c == ' ') = true
      · simp [splitGo, h, List.dropWhile_cons, ih]
      · simp [splitGo, h, List.dropWhile_cons, isTermOpt]

theorem splitGo_concat (v : List Char) :
    ∀ (u acc : List Char), sepOk acc.head? u = true →
      splitGo false acc (u ++ ' ' :: v) =
        (acc.reverse ++ u) :: splitGo true [] v := by
  intro u
  induction u with
  | nil =>
      intro acc h
      have ht : isTermOpt acc.head? = true := by simpa [sepOk] using h
      simp [splitGo, ht]
  | cons c u' ih =>
      intro acc h
      have h' := h
      simp only [sepOk, Bool.and_eq_true, Bool.not_eq_true'] at h'
      obtain ⟨hc1, hc2⟩ := h'
      have hstep : splitGo false acc ((c :: u') ++ ' ' :: v) =
          splitGo false (c :: acc) (u' ++ ' ' :: v) := by
        simp [splitGo, hc1]
      rw [hstep, ih (c :: acc) (by simpa using hc2)]
      simp

theorem lastOpt_append_singleton (c : Char) :
    ∀ (xs : List Char) (p : Option Char), lastOpt p (xs ++ [c]) = some c := by
  intro xs
  induction xs with
  | nil => intro p; rfl
  | cons x xs' ih => intro p; exact ih (some x)

theorem lastOpt_reverse_head (acc : List Char) :
    lastOpt none acc.reverse = acc.head? := by
  cases acc with
  | nil => rfl
  | cons c acc' =>
      rw [List.reverse_cons, lastOpt_append_singleton]
      rfl

theorem noSplitIn_append_singleton (c : Char) :
    ∀ (xs : List Char) (p : Option Char),
      noSplitIn p (xs ++ [c]) =
        (noSplitIn p xs && !(isTermOpt (lastOpt p xs) && c == ' ')) := by
  intro xs
  induction xs with
  | nil => intro p; simp [noSplitIn, lastOpt]
  | cons x xs' ih =>
      intro p
      simp only [List.cons_append, noSplitIn, lastOpt, List.append_eq,
        ih (some x), Bool.and_assoc]

theorem splitGo_single (l : List Char) :
    ∀ acc : List Char, noSplitIn acc.head? l = true →
      splitGo false acc l = [acc.reverse ++ l] := by
  induction l with
  | nil => intro acc _; simp [splitGo]
  | cons c rest ih =>
      intro acc h
      simp only [noSplitIn, Bool.and_eq_true, Bool.not_eq_true'] at h
      obtain ⟨hc1, hc2⟩ := h
      simp only [splitGo, hc1, Bool.false_eq_true, if_false]
      rw [ih (c :: acc) (by simpa using hc2)]
      simp

theorem splitGo_units_clean (l : List Char) :
    (∀ acc : List Char, noSplitIn none acc.reverse = true →
      ∀ u ∈ splitGo false acc l, noSplitIn none u = true) ∧
    (∀ u ∈ splitGo true [] l, noSplitIn none u = true) := by
  induction l with
  | nil =>
      constructor
      · intro acc hacc u hu
        simp only [splitGo, List.mem_singleton] at hu
        subst hu
        exact hacc
      · intro u hu
        simp only [splitGo, List.mem_singleton] at hu
        subst hu
        rfl
  | cons c rest ih =>
      obtain ⟨ih1, ih2⟩ := ih
      constructor
      · intro acc hacc u hu
        by_cases hb : (isTermOpt acc.head? && (c == ' ')) = true
        · simp only [splitGo, hb, if_true, List.mem_cons] at hu
          rcases hu with hu | hu
          · subst hu
            exact hacc
          · exact ih2 u hu
        · have hb' : (isTermOpt acc.head? && (c == ' ')) = false :=
            Bool.not_eq_true _ ▸ Bool.eq_false_iff.mpr hb
          have hacc' : noSplitIn none ((c :: acc).reverse) = true := by
            rw [List.reverse_cons, noSplitIn_append_singleton,
              lastOpt_reverse_head, hacc, hb']
            rfl
          refine ih1 (c :: acc) hacc' u ?_
          simpa [splitGo, hb] using hu
      · intro u hu
        by_cases hc : (c == ' ') = true
        · exact ih2 u (by simpa [splitGo, hc] using hu)
        · refine ih1 [c] rfl u ?_
          simpa [splitGo, hc] using hu

/-! ## Accessor and arithmetic helpers -/

theorem check_matchList_eq (collab : String → SearchResponse) (text : String) :
    (check_plagiarism collab text).matchList = (scanOf collab text).matchList :=
  rfl

theorem check_exact_percent_eq (collab : String → SearchResponse)
    (text : String) :
    (check_plagiarism collab text).exact_percent =
      if 0 < text.length then
        pyRound (mkRat (((scanOf collab text).exact_chars : ℤ) * 100)
          text.length)
      else 0 :=
  rfl

theorem check_pmatch_percent_eq (collab : String → SearchResponse)
    (text : String) :
    (check_plagiarism collab text).pmatch_percent =
      if 0 < text.length then
        pyRound (mkRat (((scanOf collab text).pmatch_chars : ℤ) * 100)
          text.length)
      else 0 :=
  rfl

theorem check_total_percent_eq (collab : String → SearchResponse)
    (text : String) :
    (check_plagiarism collab text).total_percent =
      (check_plagiarism collab text).exact_percent +
        (check_plagiarism collab text).pmatch_percent :=
  rfl

theorem unitVerdict_failure (collab : String → SearchResponse) (s0 : String)
    (hf : collab (queryOf s0) = SearchResponse.failure) :
    unitVerdict collab s0 = none := by
  unfold unitVerdict
  split
  · rfl
  · rw [hf]

theorem pyRound_zero : pyRound 0 = 0 := by decide

theorem mkRat_zero_num (t : ℕ) : mkRat ((0:ℤ) * 100) t = 0 := by
  simp [Rat.mkRat_eq_div]

theorem mkRat_mul_hundred (e t : ℕ) :
    mkRat ((e:ℤ) * 100) t = ((e:ℚ) / (t:ℚ)) * 100 := by
  rw [Rat.mkRat_eq_div]
  push_cast
  ring

theorem mkRat_percent_le (e t : ℕ) (h : e ≤ t) (ht : 0 < t) :
    mkRat ((e:ℤ) * 100) t ≤ ((100:ℤ):ℚ) := by
  rw [Rat.mkRat_eq_div]
  rw [div_le_iff₀ (by exact_mod_cast ht)]
  push_cast
  have hc : (e:ℚ) ≤ (t:ℚ) := by exact_mod_cast h
  nlinarith

theorem sum_map_pair (l : List String) (f g : String → ℕ) :
    (l.map f).sum + (l.map g).sum = (l.map (fun x => f x + g x)).sum := by
  induction l with
  | nil => simp
  | cons a t ih =>
      simp only [List.map_cons, List.sum_cons]
      rw [← ih]
      omega

theorem sum_trimmed_le (text : String) :
    ((sentencesOf text).map (fun s0 => (trimmedOf s0).length)).sum ≤
      text.length := by
  unfold sentencesOf
  rw [List.map_map]
  have hcomp : ((fun s0 => (trimmedOf s0).length) ∘ String.mk) =
      fun piece : List Char => (pyStrip piece).length := by
    funext piece
    rfl
  rw [hcomp]
  calc ((splitSentences text.data).map
        (fun piece => (pyStrip piece).length)).sum
      ≤ ((splitSentences text.data).map List.length).sum :=
        List.sum_le_sum (fun piece _ => pyStrip_length_le piece)
    _ ≤ text.data.length := splitSentences_sum_le text.data
    _ = text.length := rfl

/-! ## Claims -/

/-- C1: for every sentence and candidate list, if some candidate's
lower-cased snippet contains the lower-cased sentence as a substring, the
classifier returns the exact verdict for the first such candidate in
collaborator order, and the outcome is independent of every later candidate
(they are never examined), even if one of them would score a higher Jaccard
similarity. -/
theorem claim_C1_exact_short_circuit (sl : List Char) (items1 : List Item)
    (item : Item) (items2 : List Item)
    (h1 : ∀ it ∈ items1, subMatch sl (lowerL it.snippet.data) = false)
    (h2 : subMatch sl (lowerL item.snippet.data) = true) :
    classify sl (items1 ++ item :: items2) = some (("exact"), item) := by
  unfold classify
  exact classifyAux_exact_first sl item items2 items1 none 0 h1 h2

theorem claim_C1_witness :
    (∀ it ∈ [Item.mk ("l1") ("totally different words here")],
      subMatch (("the cat sat on the mat").data)
        (lowerL it.snippet.data) = false) ∧
    subMatch (("the cat sat on the mat").data)
      (lowerL (Item.mk ("l2")
        ("Story: The cat sat on the mat today.")).snippet.data) = true ∧
    classify (("the cat sat on the mat").data)
        ([Item.mk ("l1") ("totally different words here")] ++
          Item.mk ("l2") ("Story: The cat sat on the mat today.") ::
          [Item.mk ("l3") ("the cat sat on the mat twice over")]) =
      some (("exact"), Item.mk ("l2")
        ("Story: The cat sat on the mat today.")) :=
  ⟨by decide, by decide,
   claim_C1_exact_short_circuit _ _ _ _ (by decide) (by decide)⟩

/-- C2: when no candidate is an exact match, the classifier returns `none`
exactly when every candidate's Jaccard similarity is below `3/10` (so a
similarity of exactly `3/10` qualifies), and otherwise returns a partial
verdict for the earliest candidate attaining the maximal similarity: its
similarity is at least `3/10`, no candidate scores strictly more, and every
earlier candidate scores strictly less (ties keep the earlier candidate). -/
theorem claim_C2_partial_selection (sl : List Char) (items : List Item)
    (hno : ∀ it ∈ items, subMatch sl (lowerL it.snippet.data) = false) :
    (classify sl items = none ↔
      ∀ it ∈ items, simOf sl it < mkRat 3 10) ∧
    (∀ (mt : String) (it : Item), classify sl items = some (mt, it) →
      mt = ("partial") ∧ mkRat 3 10 ≤ simOf sl it ∧
      ∃ (i : ℕ) (hi : i < items.length), items.get ⟨i, hi⟩ = it ∧
        (∀ (j : ℕ) (hj : j < items.length),
          simOf sl (items.get ⟨j, hj⟩) ≤ simOf sl it) ∧
        (∀ (j : ℕ) (hj : j < items.length), j < i →
          simOf sl (items.get ⟨j, hj⟩) < simOf sl it)) := by
  have hchar := classifyAux_no_exact_char sl items none 0 hno
  rcases hchar with ⟨heq, hall⟩ | ⟨i, hi, heq, h03, hgt, hmax, hfirst⟩
  · constructor
    · constructor
      · intro _ it hit
        rcases hall it hit with h1 | h1
        · have h0 : 0 ≤ simOf sl it := jaccard_nonneg _ _
          have hz : simOf sl it = 0 := le_antisymm h1 h0
          rw [hz]
          decide
        · exact h1
      · intro _
        unfold classify
        exact heq
    · intro mt it hsome
      unfold classify at hsome
      rw [heq] at hsome
      cases hsome
  · have hone : classify sl items =
        some (("partial"), items.get ⟨i, hi⟩) := by
      unfold classify
      exact heq
    constructor
    · constructor
      · intro hnone
        rw [hone] at hnone
        cases hnone
      · intro hall2
        exfalso
        exact absurd h03 (not_le.mpr (hall2 (items.get ⟨i, hi⟩)
          (items.get_mem _ _)))
    · intro mt it hsome
      rw [hone] at hsome
      have hpair : (("partial"), items.get ⟨i, hi⟩) = (mt, it) :=
        Option.some.inj hsome
      have hmt : mt = ("partial") := ((Prod.ext_iff.mp hpair).1).symm
      have hit : items.get ⟨i, hi⟩ = it := (Prod.ext_iff.mp hpair).2
      subst hit
      exact ⟨hmt, h03, i, hi, rfl, hmax, hfirst⟩

theorem claim_C2_witness :
    (∀ it ∈ [Item.mk ("l1") ("zz yy xx"),
        Item.mk ("l2") ("aa xx bb cc d1 d2 d3 d4 d5 d6")],
      subMatch (("aa bb cc").data) (lowerL it.snippet.data) = false) ∧
    classify (("aa bb cc").data)
        [Item.mk ("l1") ("zz yy xx"),
         Item.mk ("l2") ("aa xx bb cc d1 d2 d3 d4 d5 d6")] =
      some (("partial"), Item.mk ("l2") ("aa xx bb cc d1 d2 d3 d4 d5 d6")) ∧
    simOf (("aa bb cc").data)
      (Item.mk ("l2") ("aa xx bb cc d1 d2 d3 d4 d5 d6")) = mkRat 3 10 ∧
    mkRat 3 10 ≤ simOf (("aa bb cc").data)
      (Item.mk ("l2") ("aa xx bb cc d1 d2 d3 d4 d5 d6")) :=
  ⟨by decide, by decide, by decide,
   ((claim_C2_partial_selection (("aa bb cc").data)
      [Item.mk ("l1") ("zz yy xx"),
       Item.mk ("l2") ("aa xx bb cc d1 d2 d3 d4 d5 d6")]
      (by decide)).2 ("partial")
      (Item.mk ("l2") ("aa xx bb cc d1 d2 d3 d4 d5 d6")) (by decide)).2.1⟩

/-- C3 counterexample: the claim says a unit of trimmed length 14 is kept
and queried, but on a 14-character text the code issues no query at all
(the code's cut-off is `len(sentence) < 15`). -/
theorem claim_C3_counterexample :
    (trimmedOf ("abcdefghijklmn")).length = 14 ∧
    sentencesOf ("abcdefghijklmn") = [("abcdefghijklmn")] ∧
    (scanOf (fun _ => SearchResponse.failure) ("abcdefghijklmn")).queries =
      [] := by
  refine ⟨by decide, by decide, by decide⟩

/-- C3 (amended): segmentation excludes exactly the units whose trimmed
length is below 15: the queries issued are precisely (and in order) those
for trimmed units of length at least 15, and a unit with trimmed length
below 15 contributes nothing to either character accumulator and produces
no match record (its characters still count in `total_chars`, which is the
raw text length). -/
theorem claim_C3_amended_threshold_15 (collab : String → SearchResponse)
    (text : String) :
    (scanOf collab text).queries =
      ((sentencesOf text).filter
        (fun s0 => 15 ≤ (trimmedOf s0).length)).map queryOf ∧
    (∀ s0 : String, (trimmedOf s0).length < 15 →
      exactContrib collab s0 = 0 ∧ pmatchContrib collab s0 = 0 ∧
      recordOf collab s0 = none) := by
  constructor
  · rw [scanOf_eq]
  · intro s0 hshort
    have hv : unitVerdict collab s0 = none := by
      unfold unitVerdict
      rw [if_pos hshort]
    refine ⟨?_, ?_, ?_⟩
    · unfold exactContrib
      rw [hv]
    · unfold pmatchContrib
      rw [hv]
    · unfold recordOf
      rw [hv]
      rfl

theorem claim_C3_witness :
    (trimmedOf ("tiny.")).length < 15 ∧
    exactContrib (fun _ => SearchResponse.failure) ("tiny.") = 0 ∧
    pmatchContrib (fun _ => SearchResponse.failure) ("tiny.") = 0 ∧
    (scanOf collab9 ("abcde fghij klmno. tiny.")).queries =
      ((sentencesOf ("abcde fghij klmno. tiny.")).filter
        (fun s0 => 15 ≤ (trimmedOf s0).length)).map queryOf :=
  ⟨by decide,
   ((claim_C3_amended_threshold_15 (fun _ => SearchResponse.failure)
      ("")).2 ("tiny.") (by decide)).1,
   ((claim_C3_amended_threshold_15 (fun _ => SearchResponse.failure)
      ("")).2 ("tiny.") (by decide)).2.1,
   (claim_C3_amended_threshold_15 collab9 ("abcde fghij klmno. tiny.")).1⟩

/-- C4: with `total_chars` the length of the raw input, each percentage is
the Python rounding of `chars / total_chars * 100` when `total_chars > 0`
and `0` otherwise, and `total_percent` is the plain integer sum of the two
independently rounded percentages; the two roundings are genuinely
independent — there are inputs where the sum differs from rounding the
combined ratio. -/
theorem claim_C4_percent_formulas (collab : String → SearchResponse)
    (text : String) :
    ((check_plagiarism collab text).exact_percent =
      if 0 < text.length then
        pyRound ((((scanOf collab text).exact_chars : ℚ) /
          (text.length : ℚ)) * 100)
      else 0) ∧
    ((check_plagiarism collab text).pmatch_percent =
      if 0 < text.length then
        pyRound ((((scanOf collab text).pmatch_chars : ℚ) /
          (text.length : ℚ)) * 100)
      else 0) ∧
    ((check_plagiarism collab text).total_percent =
      (check_plagiarism collab text).exact_percent +
        (check_plagiarism collab text).pmatch_percent) ∧
    (∃ (collab' : String → SearchResponse) (text' : String),
      0 < text'.length ∧
      (check_plagiarism collab' text').total_percent ≠
        pyRound (((((scanOf collab' text').exact_chars +
          (scanOf collab' text').pmatch_chars : ℕ) : ℚ) /
          (text'.length : ℚ)) * 100)) := by
  refine ⟨?_, ?_, check_total_percent_eq collab text, ?_⟩
  · rw [check_exact_percent_eq, mkRat_mul_hundred]
  · rw [check_pmatch_percent_eq, mkRat_mul_hundred]
  · refine ⟨collab4, text4, by decide, ?_⟩
    have h1 : (check_plagiarism collab4 text4).total_percent = 76 := by decide
    have h2 : (scanOf collab4 text4).exact_chars = 15 := by decide
    have h3 : (scanOf collab4 text4).pmatch_chars = 15 := by decide
    have h4 : text4.length = 40 := by decide
    rw [h1, h2, h3, h4, ← mkRat_mul_hundred (15 + 15) 40]
    decide

/-- C5: a collaborator failure on a sentence's query is absorbed for that
sentence alone — the sentence gets verdict `none` and contributes nothing —
while the loop's outcome is the independent accumulation over all
sentences; in particular when every call fails the result still comes back
with no matches and all three percentages `0`. -/
theorem claim_C5_failure_isolated (collab : String → SearchResponse)
    (text : String) :
    ((check_plagiarism collab text).matchList =
      (sentencesOf text).filterMap (recordOf collab)) ∧
    (∀ s0 : String, collab (queryOf s0) = SearchResponse.failure →
      unitVerdict collab s0 = none ∧ exactContrib collab s0 = 0 ∧
      pmatchContrib collab s0 = 0 ∧ recordOf collab s0 = none) ∧
    ((∀ q : String, collab q = SearchResponse.failure) →
      (check_plagiarism collab text).matchList = [] ∧
      (check_plagiarism collab text).exact_percent = 0 ∧
      (check_plagiarism collab text).pmatch_percent = 0 ∧
      (check_plagiarism collab text).total_percent = 0) := by
  have hml : (check_plagiarism collab text).matchList =
      (sentencesOf text).filterMap (recordOf collab) := by
    rw [check_matchList_eq, scanOf_eq]
  refine ⟨hml, ?_, ?_⟩
  · intro s0 hf
    have hv := unitVerdict_failure collab s0 hf
    refine ⟨hv, ?_, ?_, ?_⟩
    · unfold exactContrib
      rw [hv]
    · unfold pmatchContrib
      rw [hv]
    · unfold recordOf
      rw [hv]
      rfl
  · intro hfail
    have hv0 : ∀ s0, unitVerdict collab s0 = none :=
      fun s0 => unitVerdict_failure collab s0 (hfail _)
    have hrec : ∀ s0 : String, recordOf collab s0 = none := by
      intro s0
      unfold recordOf
      rw [hv0 s0]
      rfl
    have hec : ∀ s0 : String, exactContrib collab s0 = 0 := by
      intro s0
      unfold exactContrib
      rw [hv0 s0]
    have hpc : ∀ s0 : String, pmatchContrib collab s0 = 0 := by
      intro s0
      unfold pmatchContrib
      rw [hv0 s0]
    have hche : (scanOf collab text).exact_chars = 0 := by
      rw [scanOf_eq]
      refine List.sum_eq_zero ?_
      intro x hx
      rcases List.mem_map.mp hx with ⟨s0, _, rfl⟩
      exact hec s0
    have hchp : (scanOf collab text).pmatch_chars = 0 := by
      rw [scanOf_eq]
      refine List.sum_eq_zero ?_
      intro x hx
      rcases List.mem_map.mp hx with ⟨s0, _, rfl⟩
      exact hpc s0
    have hpe : (check_plagiarism collab text).exact_percent = 0 := by
      rw [check_exact_percent_eq, hche]
      split
      · simp only [Nat.cast_zero]
        rw [mkRat_zero_num, pyRound_zero]
      · rfl
    have hpp : (check_plagiarism collab text).pmatch_percent = 0 := by
      rw [check_pmatch_percent_eq, hchp]
      split
      · simp only [Nat.cast_zero]
        rw [mkRat_zero_num, pyRound_zero]
      · rfl
    refine ⟨?_, hpe, hpp, ?_⟩
    · rw [hml]
      exact List.filterMap_eq_nil_iff.mpr (fun a _ => hrec a)
    · rw [check_total_percent_eq, hpe, hpp]
      rfl

theorem claim_C5_witness :
    (unitVerdict (fun _ => SearchResponse.failure)
      ("this sentence is long enough.") = none) ∧
    (check_plagiarism (fun _ => SearchResponse.failure)
      ("This part is long enough. And this second part also is.")).matchList
      = [] ∧
    (check_plagiarism (fun _ => SearchResponse.failure)
      ("This part is long enough. And this second part also is.")).total_percent
      = 0 :=
  ⟨(((claim_C5_failure_isolated (fun _ => SearchResponse.failure) ("")).2.1
      ("this sentence is long enough.")) rfl).1,
   ((claim_C5_failure_isolated (fun _ => SearchResponse.failure)
      ("This part is long enough. And this second part also is.")).2.2
      (fun _ => rfl)).1,
   ((claim_C5_failure_isolated (fun _ => SearchResponse.failure)
      ("This part is long enough. And this second part also is.")).2.2
      (fun _ => rfl)).2.2.2⟩

/-- C6 counterexample: the claim says a terminator followed by any
whitespace character (space, tab, or newline) starts a new unit, but the
regex separator is one or more literal spaces, so a newline or a tab after
a period does not split. -/
theorem claim_C6_counterexample :
    splitSentences (("One two.\nThree four.").data) =
      [("One two.\nThree four.").data] ∧
    splitSentences (("One two.\tThree four.").data) =
      [("One two.\tThree four.").data] ∧
    splitSentences (("One two.\nThree four.").data) ≠
      [("One two.").data, ("Three four.").data] := by
  refine ⟨by decide, by decide, by decide⟩

/-- C6 (amended): the segmenter starts a new unit exactly where one of
`.`, `!`, `?` is immediately followed by one or more space characters
(U+0020): at such a point the terminator stays attached to the preceding
unit and the space run is consumed; a text with no terminator-followed-by-
space point anywhere — in particular one where every terminator is
followed by a tab, a newline, another character or the end of the text,
whatever other spaces it contains — is kept as a single unit; and every
produced unit is itself free of terminator-followed-by-space points, so no
split point is ever skipped. -/
theorem claim_C6_amended_space_only :
    (∀ (u v : List Char), sepOk none u = true →
      splitSentences (u ++ ' ' :: v) =
        u :: splitSentences (v.dropWhile (fun c => c == ' '))) ∧
    (∀ l : List Char, noSplitIn none l = true → splitSentences l = [l]) ∧
    (∀ (l u : List Char), u ∈ splitSentences l →
      noSplitIn none u = true) := by
  refine ⟨?_, ?_, ?_⟩
  · intro u v h
    unfold splitSentences
    rw [splitGo_concat v u [] h, splitGo_skip_eq]
    simp
  · intro l h
    unfold splitSentences
    rw [splitGo_single l [] h]
    simp
  · intro l u hu
    exact (splitGo_units_clean l).1 [] rfl u hu

theorem claim_C6_witness :
    sepOk none (("Hi there pal.").data) = true ∧
    noSplitIn none (("One two.\nThree four.").data) = true ∧
    noSplitIn none (("One two.\tThree four.").data) = true ∧
    (("C\td.").data) ∈ splitSentences (("A b. C\td. E f.").data) ∧
    splitSentences ((("Hi there pal.").data) ++ ' ' :: (("Ok then.").data)) =
      (("Hi there pal.").data) ::
        splitSentences ((("Ok then.").data).dropWhile (fun c => c == ' ')) ∧
    splitSentences (("One two.\nThree four.").data) =
      [("One two.\nThree four.").data] ∧
    splitSentences (("One two.\tThree four.").data) =
      [("One two.\tThree four.").data] ∧
    noSplitIn none (("C\td.").data) = true :=
  ⟨by decide, by decide, by decide, by decide,
   claim_C6_amended_space_only.1 _ _ (by decide),
   claim_C6_amended_space_only.2.1 _ (by decide),
   claim_C6_amended_space_only.2.1 _ (by decide),
   claim_C6_amended_space_only.2.2 (("A b. C\td. E f.").data) _ (by decide)⟩

/-- C7 counterexample: on the spec's example text with a collaborator whose
snippet contains the first sentence verbatim, the exact percentage is not
87 — the first sentence has 44 characters and the text 51, and
`round(4400/51) = 86`. -/
theorem claim_C7_counterexample :
    subMatch (lowerL (("The quick brown fox jumps over the lazy dog.").data))
      (lowerL (("Typography: The quick brown fox jumps over the lazy dog. A classic pangram.").data)) = true ∧
    (check_plagiarism collab7 text7).exact_percent ≠ 87 := by
  refine ⟨by decide, by decide⟩

/-- C7 (amended): on the text `"The quick brown fox jumps over the lazy
dog. Short."` with a collaborator whose snippet contains the first sentence
verbatim, only the first sentence is queried, the result has exactly one
match of type `"exact"`, and the percentages are `exact = 86`,
`partial = 0`, `total = 86`. -/
theorem claim_C7_amended_end_to_end :
    (scanOf collab7 text7).queries =
      [("\"The quick brown fox jumps over the lazy dog.\"")] ∧
    (check_plagiarism collab7 text7).matchList.map (fun m => m.match_type) =
      [("exact")] ∧
    (check_plagiarism collab7 text7).exact_percent = 86 ∧
    (check_plagiarism collab7 text7).pmatch_percent = 0 ∧
    (check_plagiarism collab7 text7).total_percent = 86 := by
  refine ⟨by decide, by decide, by decide, by decide, by decide⟩

/-- C8: the request handler rejects a missing `text` field and a text
longer than 5000 characters with the corresponding 400 responses — in the
rejected cases the collaborator is never involved (the response is the same
for every collaborator, so no segmentation, search, or scoring happens) —
and accepts any text of length at most 5000 (in particular exactly 5000),
running the checker on it. -/
theorem claim_C8_validation (collab : String → SearchResponse)
    (tf : Option String) :
    (tf = none →
      handle_check collab tf = HttpResponse.badRequest ("No text provided")) ∧
    (∀ text : String, tf = some text → 5000 < text.length →
      handle_check collab tf =
        HttpResponse.badRequest ("Text exceeds 5000 characters")) ∧
    (∀ text : String, tf = some text → text.length ≤ 5000 →
      handle_check collab tf =
        HttpResponse.ok (check_plagiarism collab text)) ∧
    (∀ (collab' : String → SearchResponse) (text : String),
      5000 < text.length →
      handle_check collab (some text) = handle_check collab' (some text)) := by
  refine ⟨?_, ?_, ?_, ?_⟩
  · intro h
    subst h
    rfl
  · intro text h hlen
    subst h
    simp [handle_check, hlen]
  · intro text h hlen
    subst h
    have hnot : ¬ (5000 < text.length) := by omega
    simp [handle_check, hnot]
  · intro collab' text hlen
    simp [handle_check, hlen]

theorem claim_C8_witness :
    (String.mk (List.replicate 5000 'a')).length = 5000 ∧
    handle_check (fun _ => SearchResponse.failure)
        (some (String.mk (List.replicate 5000 'a'))) =
      HttpResponse.ok (check_plagiarism (fun _ => SearchResponse.failure)
        (String.mk (List.replicate 5000 'a'))) ∧
    handle_check (fun _ => SearchResponse.failure)
        (some (String.mk (List.replicate 5001 'a'))) =
      HttpResponse.badRequest ("Text exceeds 5000 characters") ∧
    handle_check (fun _ => SearchResponse.failure) none =
      HttpResponse.badRequest ("No text provided") := by
  have hlen : (String.mk (List.replicate 5000 'a')).length = 5000 := by
    show (List.replicate 5000 'a').length = 5000
    rw [List.length_replicate]
  have hlen2 : (String.mk (List.replicate 5001 'a')).length = 5001 := by
    show (List.replicate 5001 'a').length = 5001
    rw [List.length_replicate]
  refine ⟨hlen, ?_, ?_, ?_⟩
  · exact (claim_C8_validation (fun _ => SearchResponse.failure) _).2.2.1 _
      rfl (by omega)
  · exact (claim_C8_validation (fun _ => SearchResponse.failure) _).2.1 _
      rfl (by omega)
  · exact (claim_C8_validation (fun _ => SearchResponse.failure) _).1 rfl

/-- C9: the two character accumulators are exactly the sums of the
per-sentence contributions, and each sentence contributes its full trimmed
character length to at most one of them — all of it to `exact_chars` on an
exact verdict, all of it to the partial accumulator on a partial verdict,
and nothing to either on no verdict; never both and never fractionally. -/
theorem claim_C9_single_bucket (collab : String → SearchResponse)
    (text : String) :
    (scanOf collab text).exact_chars =
      ((sentencesOf text).map (exactContrib collab)).sum ∧
    (scanOf collab text).pmatch_chars =
      ((sentencesOf text).map (pmatchContrib collab)).sum ∧
    ∀ s0 : String,
      (exactContrib collab s0 = 0 ∨ pmatchContrib collab s0 = 0) ∧
      (∀ it : Item, unitVerdict collab s0 = some (("exact"), it) →
        exactContrib collab s0 = (trimmedOf s0).length ∧
        pmatchContrib collab s0 = 0) ∧
      (∀ it : Item, unitVerdict collab s0 = some (("partial"), it) →
        pmatchContrib collab s0 = (trimmedOf s0).length ∧
        exactContrib collab s0 = 0) ∧
      (unitVerdict collab s0 = none →
        exactContrib collab s0 = 0 ∧ pmatchContrib collab s0 = 0) := by
  refine ⟨by rw [scanOf_eq], by rw [scanOf_eq], ?_⟩
  intro s0
  refine ⟨(contrib_mutually_exclusive collab s0).1, ?_, ?_, ?_⟩
  · intro it hv
    unfold exactContrib pmatchContrib
    rw [hv]
    simp
  · intro it hv
    have hne : ¬ (("partial") : String) = ("exact") := by decide
    unfold exactContrib pmatchContrib
    rw [hv]
    simp [hne]
  · intro hv
    unfold exactContrib pmatchContrib
    rw [hv]
    exact ⟨rfl, rfl⟩

theorem claim_C9_witness :
    unitVerdict collab9 ("abcde fghij klmno.") =
      some (("exact"), Item.mk ("http://x") ("abcde fghij klmno. more words")) ∧
    exactContrib collab9 ("abcde fghij klmno.") = 18 ∧
    pmatchContrib collab9 ("abcde fghij klmno.") = 0 := by
  refine ⟨by decide, ?_, ?_⟩
  · have h := ((claim_C9_single_bucket collab9 ("")).2.2
      ("abcde fghij klmno.")).2.1
      (Item.mk ("http://x") ("abcde fghij klmno. more words")) (by decide)
    calc exactContrib collab9 ("abcde fghij klmno.")
        = (trimmedOf ("abcde fghij klmno.")).length := h.1
      _ = 18 := by decide
  · exact (((claim_C9_single_bucket collab9 ("")).2.2
      ("abcde fghij klmno.")).2.1
      (Item.mk ("http://x") ("abcde fghij klmno. more words")) (by decide)).2

/-- C10: for every collaborator and text, the matched characters can never
exceed the raw input length (`exact_chars + partial_chars ≤ total_chars`),
because the trimmed sentence units are disjoint pieces of the input;
consequently both percentages lie between 0 and 100 inclusive. -/
theorem claim_C10_bounds (collab : String → SearchResponse) (text : String) :
    (scanOf collab text).exact_chars + (scanOf collab text).pmatch_chars ≤
      text.length ∧
    0 ≤ (check_plagiarism collab text).exact_percent ∧
    (check_plagiarism collab text).exact_percent ≤ 100 ∧
    0 ≤ (check_plagiarism collab text).pmatch_percent ∧
    (check_plagiarism collab text).pmatch_percent ≤ 100 := by
  have hmain : (scanOf collab text).exact_chars +
      (scanOf collab text).pmatch_chars ≤ text.length := by
    rw [scanOf_eq]
    calc ((sentencesOf text).map (exactContrib collab)).sum +
          ((sentencesOf text).map (pmatchContrib collab)).sum
        = ((sentencesOf text).map
            (fun s0 => exactContrib collab s0 + pmatchContrib collab s0)).sum :=
          sum_map_pair _ _ _
      _ ≤ ((sentencesOf text).map (fun s0 => (trimmedOf s0).length)).sum :=
          List.sum_le_sum
            (fun s0 _ => (contrib_mutually_exclusive collab s0).2)
      _ ≤ text.length := sum_trimmed_le text
  have he : (scanOf collab text).exact_chars ≤ text.length :=
    le_trans (Nat.le_add_right _ _) hmain
  have hp : (scanOf collab text).pmatch_chars ≤ text.length :=
    le_trans (Nat.le_add_left _ _) hmain
  refine ⟨hmain, ?_, ?_, ?_, ?_⟩
  · rw [check_exact_percent_eq]
    split
    · exact pyRound_nonneg _ (Rat.mkRat_nonneg (by positivity) _)
    · exact le_refl 0
  · rw [check_exact_percent_eq]
    split
    · rename_i ht
      exact pyRound_le_intCast _ 100 (mkRat_percent_le _ _ he ht)
    · norm_num
  · rw [check_pmatch_percent_eq]
    split
    · exact pyRound_nonneg _ (Rat.mkRat_nonneg (by positivity) _)
    · exact le_refl 0
  · rw [check_pmatch_percent_eq]
    split
    · rename_i ht
      exact pyRound_le_intCast _ 100 (mkRat_percent_le _ _ hp ht)
    · norm_num
